import Mathlib

set_option maxRecDepth 100000

/-!
Verification of the response-parsing and coordinate-rescaling pipeline of the
UI-Difference-Detector repository (`server/services/comapre.js`).

The JavaScript source is shallowly embedded below:
* JSON values become the inductive `Json`; `JSON.parse` becomes the fueled
  recursive parser `jsonParse` (JSON grammar: no trailing commas, no leading
  zeros, fenced whitespace as in ECMA-404).
* The two regular-expression extractions
  `content.match(/BTICKjson\n\x7b\s*"KEY"[\s\S]*?\x7d\nBTICK/)` (BTICK is a
  code-fence backtick run) become `firstMatch`, which scans for the leftmost
  start position and takes the shortest lazy expansion, exactly as a JS regex
  engine does; the global replace that strips the fences becomes `stripFences`.
* JS runtime errors that the code can raise are collected in `JsErr`:
  `badJson` models the `SyntaxError` thrown by `JSON.parse`, `missingPayload`
  models `new Error("Failed to extract processed dimensions or differences
  from response")`, and `undefinedProp` models the `TypeError` raised by a
  property access on `undefined`.
-/

/-- JSON values, as produced by `JSON.parse`.  Numbers are modelled as exact
rationals (the JS engine uses binary floating point; every number occurring in
the analysed payloads is small enough that the distinction is immaterial, and
non-finite results of arithmetic are modelled separately by `JsNum`). -/
inductive Json where
  | null
  | bool (b : Bool)
  | num (q : ℚ)
  | str (s : String)
  | arr (elems : List Json)
  | obj (fields : List (String × Json))

/-- Last-wins lookup in an object field list: `JSON.parse` keeps the last
occurrence of a duplicated key. -/
def lookupLast : List (String × Json) → String → Option Json
  | [], _ => none
  | (k', v) :: rest, k =>
    match lookupLast rest k with
    | some r => some r
    | none => if k' == k then some v else none

/-- JS property read `j.k` on a non-nullish value: a key lookup on objects,
`undefined` (here `none`) on every other value. -/
def getField : Json → String → Option Json
  | Json.obj fs, k => lookupLast fs k
  | _, _ => none

/-- JS falsiness of a parsed JSON value (`null`, `false`, `0` and `""` are
falsy; objects and arrays are always truthy). -/
def jsFalsy : Json → Bool
  | Json.null => true
  | Json.bool b => !b
  | Json.num q => decide (q = 0)
  | Json.str s => s == ""
  | Json.arr _ => false
  | Json.obj _ => false

/-- JSON insignificant whitespace (ECMA-404: space, tab, line feed, carriage
return). -/
def jsonWsChar (c : Char) : Bool :=
  c == ' ' || c == '\t' || c == '\n' || c == '\r'

/-- Drop leading JSON whitespace. -/
def skipWs : List Char → List Char
  | [] => []
  | c :: rest => if jsonWsChar c then skipWs rest else c :: rest

/-- If `cs` starts with the literal `lit`, return the remainder. -/
def afterLit : List Char → List Char → Option (List Char)
  | [], cs => some cs
  | _ :: _, [] => none
  | p :: ps, c :: cs => if c == p then afterLit ps cs else none

/-- Value of a decimal digit. -/
def digitVal (c : Char) : Option ℕ :=
  if '0' ≤ c ∧ c ≤ '9' then some (c.toNat - '0'.toNat) else none

/-- Split off a maximal run of decimal digits. -/
def takeDigits : List Char → (List ℕ × List Char)
  | [] => ([], [])
  | c :: rest =>
    match digitVal c with
    | some d => let (ds, r) := takeDigits rest; (d :: ds, r)
    | none => ([], c :: rest)

/-- Natural number denoted by a digit run. -/
def natOfDigits (ds : List ℕ) : ℕ := ds.foldl (fun a d => a * 10 + d) 0

/-- Fractional value of the digit run after the decimal point. -/
def fracVal (ds : List ℕ) : ℚ :=
  (natOfDigits ds : ℚ) / (10 : ℚ) ^ (ds.length)

/-- Optional exponent part of a JSON number. -/
def parseNumExp (neg : Bool) (m : ℚ) (cs : List Char) : Option (ℚ × List Char) :=
  let v := if neg then -m else m
  match cs with
  | [] => some (v, [])
  | c :: r =>
    if c == 'e' || c == 'E' then
      let (eneg, r1) :=
        match r with
        | '+' :: r2 => (false, r2)
        | '-' :: r2 => (true, r2)
        | _ => (false, r)
      let (ds, r2) := takeDigits r1
      if ds.isEmpty then none
      else
        some (v * (10 : ℚ) ^ (if eneg then -(natOfDigits ds : ℤ) else (natOfDigits ds : ℤ)), r2)
    else some (v, c :: r)

/-- Optional fraction part of a JSON number, then the exponent part. -/
def parseNumRest (neg : Bool) (ip : ℕ) (cs : List Char) : Option (ℚ × List Char) :=
  match cs with
  | '.' :: r =>
    let (ds, r2) := takeDigits r
    if ds.isEmpty then none else parseNumExp neg ((ip : ℚ) + fracVal ds) r2
  | _ => parseNumExp neg (ip : ℚ) cs

/-- JSON number grammar: optional minus, `0` or a nonzero-led digit run
(leading zeros are a syntax error), optional fraction, optional exponent. -/
def parseNumBody (neg : Bool) : List Char → Option (ℚ × List Char)
  | '0' :: r1 => parseNumRest neg 0 r1
  | c :: r1 =>
    match digitVal c with
    | some d =>
      let (ds, r2) := takeDigits r1
      parseNumRest neg (natOfDigits (d :: ds)) r2
    | none => none
  | [] => none

/-- JSON number grammar entry: an optional leading minus, then the digits. -/
def parseNumber : List Char → Option (ℚ × List Char)
  | '-' :: tl => parseNumBody true tl
  | cs => parseNumBody false cs

/-- Value of a hexadecimal digit. -/
def hexVal (c : Char) : Option ℕ :=
  let n := c.toNat
  if 48 ≤ n ∧ n ≤ 57 then some (n - 48)
  else if 97 ≤ n ∧ n ≤ 102 then some (n - 87)
  else if 65 ≤ n ∧ n ≤ 70 then some (n - 55)
  else none

/-- Single-character JSON string escapes. -/
def escChar : Char → Option Char
  | 't' => some '\t'
  | 'r' => some '\r'
  | 'n' => some '\n'
  | 'f' => some '\x0c'
  | 'b' => some '\x08'
  | '/' => some '/'
  | '\\' => some '\\'
  | '"' => some '"'
  | _ => none

/-- Body of a JSON string after the opening quote.  Raw control characters are
a syntax error; lone surrogates (impossible in a Lean `Char`) are folded onto
`Char.ofNat`'s fallback. -/
def strBody : ℕ → List Char → Option (String × List Char)
  | 0, _ => none
  | _ + 1, [] => none
  | fuel + 1, c :: rest =>
    if c == '"' then some ("", rest)
    else if c == '\\' then
      match rest with
      | [] => none
      | e :: r2 =>
        if e == 'u' then
          match r2 with
          | a :: b :: c3 :: d :: r3 =>
            match hexVal a, hexVal b, hexVal c3, hexVal d with
            | some ha, some hb, some hc, some hd =>
              match strBody fuel r3 with
              | some (s, r4) =>
                some (String.mk (Char.ofNat (ha * 4096 + hb * 256 + hc * 16 + hd) :: s.data), r4)
              | none => none
            | _, _, _, _ => none
          | _ => none
        else
          match escChar e with
          | some ec =>
            match strBody fuel r2 with
            | some (s, r3) => some (String.mk (ec :: s.data), r3)
            | none => none
          | none => none
    else if c.toNat < 32 then none
    else
      match strBody fuel rest with
      | some (s, r2) => some (String.mk (c :: s.data), r2)
      | none => none

mutual

/-- JSON value parser (recursion bounded by fuel; `jsonParse` supplies enough
fuel for any input of the given length). -/
def parseValue : ℕ → List Char → Option (Json × List Char)
  | 0, _ => none
  | fuel + 1, cs =>
    match skipWs cs with
    | [] => none
    | c :: rest =>
      if c == 'n' then (afterLit ['u', 'l', 'l'] rest).map (fun r => (Json.null, r))
      else if c == 't' then (afterLit ['r', 'u', 'e'] rest).map (fun r => (Json.bool true, r))
      else if c == 'f' then (afterLit ['a', 'l', 's', 'e'] rest).map (fun r => (Json.bool false, r))
      else if c == '"' then
        match strBody (rest.length + 1) rest with
        | some (s, r) => some (Json.str s, r)
        | none => none
      else if c == '[' then
        match arrItems fuel rest with
        | some (xs, r) => some (Json.arr xs, r)
        | none => none
      else if c == '\x7b' then
        match objItems fuel rest with
        | some (fs, r) => some (Json.obj fs, r)
        | none => none
      else
        match parseNumber (c :: rest) with
        | some (q, r) => some (Json.num q, r)
        | none => none

/-- Array body after `[`: empty, or a comma-separated item list. -/
def arrItems : ℕ → List Char → Option (List Json × List Char)
  | 0, _ => none
  | fuel + 1, cs =>
    match skipWs cs with
    | ']' :: rest => some ([], rest)
    | cs' => arrLoop fuel cs'

/-- One array item, then `,` and more items or `]` (a trailing comma is a
syntax error: after `,` a value is mandatory). -/
def arrLoop : ℕ → List Char → Option (List Json × List Char)
  | 0, _ => none
  | fuel + 1, cs =>
    match parseValue fuel cs with
    | none => none
    | some (v, r) =>
      match skipWs r with
      | ',' :: r2 =>
        match arrLoop fuel r2 with
        | some (xs, r3) => some (v :: xs, r3)
        | none => none
      | ']' :: r2 => some ([v], r2)
      | _ => none

/-- Object body after an opening brace: empty, or a comma-separated member
list. -/
def objItems : ℕ → List Char → Option (List (String × Json) × List Char)
  | 0, _ => none
  | fuel + 1, cs =>
    match skipWs cs with
    | '\x7d' :: rest => some ([], rest)
    | cs' => objLoop fuel cs'

/-- One object member, then `,` and more members or a closing brace. -/
def objLoop : ℕ → List Char → Option (List (String × Json) × List Char)
  | 0, _ => none
  | fuel + 1, cs =>
    match skipWs cs with
    | '"' :: r0 =>
      match strBody (r0.length + 1) r0 with
      | none => none
      | some (k, r1) =>
        match skipWs r1 with
        | ':' :: r2 =>
          match parseValue fuel r2 with
          | none => none
          | some (v, r3) =>
            match skipWs r3 with
            | ',' :: r4 =>
              match objLoop fuel r4 with
              | some (fs, r5) => some ((k, v) :: fs, r5)
              | none => none
            | '\x7d' :: r4 => some ([(k, v)], r4)
            | _ => none
        | _ => none
    | _ => none

end

/-- Model of `JSON.parse`: parse one value and require that only whitespace
remains.  `none` models the thrown `SyntaxError`. -/
def jsonParse (cs : List Char) : Option Json :=
  match parseValue (2 * cs.length + 4) cs with
  | some (v, rest) => if (skipWs rest).isEmpty then some v else none
  | none => none

/-!
Exact rational arithmetic for the embedding of JS number arithmetic.  The
operations are written through `Rat.divInt` so that the kernel can evaluate
them on concrete inputs; the lemmas `qmul_eq`, `qdiv_eq`, `qadd_eq` and
`qsub_eq` identify them with the field operations of `ℚ`.
-/

/-- Multiplication on `ℚ` via `Rat.divInt`. -/
def qmul (a b : ℚ) : ℚ := Rat.divInt (a.num * b.num) ((a.den : ℤ) * (b.den : ℤ))

/-- Division on `ℚ` via `Rat.divInt` (division by zero yields zero, as in
Lean's `ℚ`; the caller `jsDiv` never applies it to a zero divisor). -/
def qdiv (a b : ℚ) : ℚ := Rat.divInt (a.num * (b.den : ℤ)) ((a.den : ℤ) * b.num)

/-- Addition on `ℚ` via `Rat.divInt`. -/
def qadd (a b : ℚ) : ℚ := Rat.divInt (a.num * (b.den : ℤ) + b.num * (a.den : ℤ)) ((a.den : ℤ) * (b.den : ℤ))

/-- Subtraction on `ℚ` via `Rat.divInt`. -/
def qsub (a b : ℚ) : ℚ := Rat.divInt (a.num * (b.den : ℤ) - b.num * (a.den : ℤ)) ((a.den : ℤ) * (b.den : ℤ))

/-- Minimum on `ℚ`, kernel-evaluable. -/
def qmin (a b : ℚ) : ℚ := if a ≤ b then a else b

/-- Maximum on `ℚ`, kernel-evaluable. -/
def qmax (a b : ℚ) : ℚ := if a ≤ b then b else a

theorem qmul_eq (a b : ℚ) : qmul a b = a * b := by
  rw [qmul, Rat.divInt_eq_div]
  push_cast
  rw [← div_mul_div_comm, Rat.num_div_den, Rat.num_div_den]

theorem qdiv_eq (a b : ℚ) : qdiv a b = a / b := by
  rcases eq_or_ne b 0 with hb | hb
  · subst hb
    simp [qdiv]
  · have had : ((a.den : ℚ)) ≠ 0 := by positivity
    have hbd : ((b.den : ℚ)) ≠ 0 := by positivity
    have ha' : (a.num : ℚ) = a * a.den := (div_eq_iff had).mp (Rat.num_div_den a)
    have hb' : (b.num : ℚ) = b * b.den := (div_eq_iff hbd).mp (Rat.num_div_den b)
    have hbn : (b.num : ℚ) ≠ 0 := by
      rw [hb']
      exact mul_ne_zero hb hbd
    rw [qdiv, Rat.divInt_eq_div]
    push_cast
    rw [div_eq_div_iff (mul_ne_zero had hbn) hb, ha', hb']
    ring

theorem qadd_eq (a b : ℚ) : qadd a b = a + b := by
  have had : ((a.den : ℚ)) ≠ 0 := by positivity
  have hbd : ((b.den : ℚ)) ≠ 0 := by positivity
  have ha' : (a.num : ℚ) = a * a.den := (div_eq_iff had).mp (Rat.num_div_den a)
  have hb' : (b.num : ℚ) = b * b.den := (div_eq_iff hbd).mp (Rat.num_div_den b)
  rw [qadd, Rat.divInt_eq_div]
  push_cast
  rw [div_eq_iff (mul_ne_zero had hbd), ha', hb']
  ring

theorem qsub_eq (a b : ℚ) : qsub a b = a - b := by
  have had : ((a.den : ℚ)) ≠ 0 := by positivity
  have hbd : ((b.den : ℚ)) ≠ 0 := by positivity
  have ha' : (a.num : ℚ) = a * a.den := (div_eq_iff had).mp (Rat.num_div_den a)
  have hb' : (b.num : ℚ) = b * b.den := (div_eq_iff hbd).mp (Rat.num_div_den b)
  rw [qsub, Rat.divInt_eq_div]
  push_cast
  rw [div_eq_iff (mul_ne_zero had hbd), ha', hb']
  ring

theorem qmin_eq (a b : ℚ) : qmin a b = min a b := by
  rw [qmin, min_def]

theorem qmax_eq (a b : ℚ) : qmax a b = max a b := by
  rw [qmax, max_def]

/-!
Model of the two payload extractions in `compareImages`
(`server/services/comapre.js`, lines 108-124): a JS `String.match` against the
regular expression (fence-backticks)`json\n\x7b\s*"KEY"[\s\S]*?\x7d\n`(fence-backticks)
without the global flag returns the leftmost match, expanding the lazy
`[\s\S]*?` as little as possible; the match is then fed through
`.replace(/(fence-backticks)json\n|\n(fence-backticks)/g, "")` and `JSON.parse`.
-/

/-- Characters matched by the JS regex class `\s` (the ASCII part plus NBSP;
further Unicode space code points never occur in the analysed text). -/
def jsWsChar (c : Char) : Bool :=
  c == ' ' || c == '\t' || c == '\n' || c == '\r' || c == '\x0b' || c == '\x0c' || c == '\u00A0'

/-- The literal that opens both payload regexes: three backticks, `json`, a
newline and an opening brace. -/
def fenceOpen : List Char := ['`', '`', '`', 'j', 's', 'o', 'n', '\n', '\x7b']

/-- The literal closing a lazy match: a closing brace, a newline and three
backticks. -/
def closeTok : List Char := ['\x7d', '\n', '`', '`', '`']

/-- The quoted key that must follow the opening brace (after `\s*`). -/
def quoteKey (key : List Char) : List Char := '"' :: (key ++ ['"'])

/-- Shortest expansion of `[\s\S]*?` followed by the closing literal: the
consumed characters up to and including the first occurrence of `closeTok`. -/
def lazyUntilClose : List Char → Option (List Char)
  | [] => none
  | c :: rest =>
    match afterLit closeTok (c :: rest) with
    | some _ => some closeTok
    | none => (lazyUntilClose rest).map (fun m => c :: m)

/-- Attempt to match the payload regex for `key` anchored at the head of `cs`,
returning the full matched substring.  The greedy `\s*` backtracks only to the
position where the following quote can match, which (as `"` is not in `\s`) is
exactly the end of the whitespace run. -/
def matchAt (key : List Char) (cs : List Char) : Option (List Char) :=
  match afterLit fenceOpen cs with
  | none => none
  | some r1 =>
    let ws := r1.takeWhile jsWsChar
    let r2 := r1.dropWhile jsWsChar
    match afterLit (quoteKey key) r2 with
    | none => none
    | some r3 =>
      match lazyUntilClose r3 with
      | none => none
      | some mid => some (fenceOpen ++ ws ++ quoteKey key ++ mid)

/-- JS `content.match(re)` without `/g`: the match at the leftmost start
position. -/
def firstMatch (key : List Char) : List Char → Option (List Char)
  | [] => none
  | c :: rest =>
    match matchAt key (c :: rest) with
    | some m => some m
    | none => firstMatch key rest

/-- Literal removed by the first alternative of the strip regex. -/
def fenceTag : List Char := ['`', '`', '`', 'j', 's', 'o', 'n', '\n']

/-- Literal removed by the second alternative of the strip regex. -/
def newlineFence : List Char := ['\n', '`', '`', '`']

/-- Fuel-bounded worker for `stripFences`: left-to-right global replace of
both alternatives by the empty string. -/
def stripFencesAux : ℕ → List Char → List Char
  | 0, cs => cs
  | _ + 1, [] => []
  | fuel + 1, c :: rest =>
    match afterLit fenceTag (c :: rest) with
    | some r => stripFencesAux fuel r
    | none =>
      match afterLit newlineFence (c :: rest) with
      | some r => stripFencesAux fuel r
      | none => c :: stripFencesAux fuel rest

/-- Model of `.replace(/(fence-backticks)json\n|\n(fence-backticks)/g, "")`. -/
def stripFences (cs : List Char) : List Char := stripFencesAux cs.length cs

/-- JS runtime errors arising in the parsing phase of `compareImages`:
`badJson` is the `SyntaxError` thrown by `JSON.parse`; `missingPayload` is
`new Error("Failed to extract processed dimensions or differences from
response")`; `undefinedProp` is the `TypeError` of a property access on
`undefined`. -/
inductive JsErr where
  | badJson
  | missingPayload
  | undefinedProp
deriving DecidableEq

/-- `JSON.parse` as used by the pipeline: `none` of `jsonParse` becomes a
thrown `SyntaxError`. -/
def jsonParseJs (cs : List Char) : Except JsErr Json :=
  match jsonParse cs with
  | some v => Except.ok v
  | none => Except.error JsErr.badJson

/-- One payload extraction of `compareImages`: regex match, fence strip,
`JSON.parse`.  `Except.ok none` models the extraction variable staying
`null` because the regex did not match. -/
def extractPayload (key : List Char) (content : List Char) : Except JsErr (Option Json) :=
  match firstMatch key content with
  | none => Except.ok none
  | some m => (jsonParseJs (stripFences m)).map some

/-- Key of the dimensions payload. -/
def keyDims : List Char := "processed_dimensions".data

/-- Key of the differences payload. -/
def keyDiffs : List Char := "differences".data

/-- Parsing phase of `compareImages` (lines 108-124): extract both payloads in
source order, then throw the generic extraction `Error` if either variable is
still `null` (or otherwise falsy). -/
def parsePhase (content : List Char) : Except JsErr (Json × Json) := do
  let pd ← extractPayload keyDims content
  let df ← extractPayload keyDiffs content
  match pd, df with
  | some pv, some dv =>
    if jsFalsy pv || jsFalsy dv then Except.error JsErr.missingPayload
    else Except.ok (pv, dv)
  | _, _ => Except.error JsErr.missingPayload

/-!
Model of `createHighlightedImage` (lines 145-208).  A canvas is its pixel
dimensions plus a total pixel function (only in-bounds pixels are meaningful).
Rasterization is point-sampled at pixel centers with no antialiasing;
`fillRect`/`strokeRect` with any non-finite argument are no-ops, as the HTML
canvas specification requires, which is how the `none` case of `JsNum`
(JS `NaN`/`Infinity`, e.g. from arithmetic on `undefined` or division by
zero) is treated.  File-system effects are abstracted: the decoded target
image enters as an `Except` (decode failure = thrown error), and the final
`fs.writeFile` (into the directory produced by `ensureOutputDir`, whose
source is not part of the repository snapshot) enters as `writeOk`.
-/

/-- A pixel color: red, green, blue in `[0, 255]`, alpha in `[0, 1]`. -/
structure RGBA where
  r : ℚ
  g : ℚ
  b : ℚ
  a : ℚ
deriving DecidableEq

/-- A canvas or decoded raster image. -/
structure Canvas where
  width : ℕ
  height : ℕ
  px : ℕ → ℕ → RGBA

/-- Source-over alpha compositing of `s` onto `d`. -/
def srcOver (s d : RGBA) : RGBA :=
  let a := s.a + d.a * (1 - s.a)
  if a = 0 then ⟨0, 0, 0, 0⟩
  else
    ⟨(s.r * s.a + d.r * d.a * (1 - s.a)) / a,
     (s.g * s.a + d.g * d.a * (1 - s.a)) / a,
     (s.b * s.a + d.b * d.a * (1 - s.a)) / a, a⟩

/-- `ctx.strokeStyle = "rgba(255, 0, 0, 0.8)"`. -/
def strokeColor : RGBA := ⟨255, 0, 0, Rat.divInt 4 5⟩

/-- `ctx.fillStyle = "rgba(255, 0, 0, 0.3)"`. -/
def fillColor : RGBA := ⟨255, 0, 0, Rat.divInt 3 10⟩

/-- `ctx.lineWidth = 3`, halved: the stroke extends `1.5` px to each side of
the rectangle border. -/
def halfLineWidth : ℚ := Rat.divInt 3 2

/-- `createCanvas(w, h)`: a transparent-black canvas. -/
def createCanvas (w h : ℕ) : Canvas := ⟨w, h, fun _ _ => ⟨0, 0, 0, 0⟩⟩

/-- `ctx.drawImage(image, 0, 0, image.width, image.height)` at native size;
painting is clipped to the canvas bounds. -/
def drawImage (c : Canvas) (img : Canvas) : Canvas :=
  { c with px := fun x y =>
      if x < c.width ∧ y < c.height ∧ x < img.width ∧ y < img.height
      then img.px x y else c.px x y }

/-- Center of pixel `i` on one axis: `i + 1/2`. -/
def ctr (i : ℕ) : ℚ := Rat.divInt (2 * (i : ℤ) + 1) 2

/-- Whether a point lies inside the (normalized) rectangle of `fillRect x y w h`. -/
def rectHit (x y w h px py : ℚ) : Bool :=
  decide (qmin x (qadd x w) ≤ px) && decide (px < qmax x (qadd x w)) &&
  decide (qmin y (qadd y h) ≤ py) && decide (py < qmax y (qadd y h))

/-- Whether a point lies inside the stroke band of `strokeRect x y w h`: within
half a line width of the rectangle, but not strictly inside it by more than
half a line width. -/
def strokeHit (x y w h px py : ℚ) : Bool :=
  (decide (qsub (qmin x (qadd x w)) halfLineWidth ≤ px) &&
   decide (px < qadd (qmax x (qadd x w)) halfLineWidth) &&
   decide (qsub (qmin y (qadd y h)) halfLineWidth ≤ py) &&
   decide (py < qadd (qmax y (qadd y h)) halfLineWidth)) &&
  !(decide (qadd (qmin x (qadd x w)) halfLineWidth ≤ px) &&
    decide (px < qsub (qmax x (qadd x w)) halfLineWidth) &&
    decide (qadd (qmin y (qadd y h)) halfLineWidth ≤ py) &&
    decide (py < qsub (qmax y (qadd y h)) halfLineWidth))

/-- `ctx.fillRect(x, y, w, h)` with the current fill style. -/
def fillRectOp (c : Canvas) (x y w h : ℚ) : Canvas :=
  { c with px := fun i j =>
      if i < c.width ∧ j < c.height ∧ rectHit x y w h (ctr i) (ctr j) = true
      then srcOver fillColor (c.px i j) else c.px i j }

/-- `ctx.strokeRect(x, y, w, h)` with the current stroke style. -/
def strokeRectOp (c : Canvas) (x y w h : ℚ) : Canvas :=
  { c with px := fun i j =>
      if i < c.width ∧ j < c.height ∧ strokeHit x y w h (ctr i) (ctr j) = true
      then srcOver strokeColor (c.px i j) else c.px i j }

/-- A JS number that may be non-finite: `none` stands for `NaN` or an
infinity (for instance `undefined * k` or division by zero). -/
abbrev JsNum := Option ℚ

/-- JS multiplication on possibly-non-finite numbers. -/
def jsMul : JsNum → JsNum → JsNum
  | some a, some b => some (qmul a b)
  | _, _ => none

/-- JS division; division by zero is collapsed into the non-finite case
(`Infinity`/`NaN`), which every canvas drawing primitive ignores. -/
def jsDiv : JsNum → JsNum → JsNum
  | some a, some b => if b = 0 then none else some (qdiv a b)
  | _, _ => none

/-- JS subtraction on possibly-non-finite numbers. -/
def jsSub : JsNum → JsNum → JsNum
  | some a, some b => some (qsub a b)
  | _, _ => none

/-- Read a field as a JS number: a missing field (`undefined`) or a
non-number value behaves as a non-finite operand in the subsequent
arithmetic.  (JS string-to-number coercion is not modelled; every observed
payload carries plain numbers.) -/
def numField (j : Json) (k : String) : JsNum :=
  match getField j k with
  | some (Json.num q) => some q
  | _ => none

/-- The four scaled corner coordinates computed for a `highlight_area`
(lines 174-180): `scaledX1 = x1 * scaleX`, `scaledY1 = y1 * scaleY`,
`scaledX2 = x2 * scaleX`, `scaledY2 = y2 * scaleY`. -/
def scaledCorners (sx sy : JsNum) (ha : Json) : JsNum × JsNum × JsNum × JsNum :=
  (jsMul (numField ha "x1") sx, jsMul (numField ha "y1") sy,
   jsMul (numField ha "x2") sx, jsMul (numField ha "y2") sy)

/-- Body of the `forEach` callback (lines 172-192): skip the difference
unless `diff.highlight_area` is truthy, otherwise stroke and fill the scaled
rectangle, whose width and height are `scaledX2 - scaledX1` and
`scaledY2 - scaledY1`.  If any coordinate is non-finite both drawing calls
are no-ops. -/
def drawDiff (sx sy : JsNum) (c : Canvas) (d : Json) : Canvas :=
  match getField d "highlight_area" with
  | none => c
  | some ha =>
    if jsFalsy ha then c
    else
      match scaledCorners sx sy ha with
      | (some x1, some y1, some x2, some y2) =>
        match jsSub (some x2) (some x1), jsSub (some y2) (some y1) with
        | some w, some h => fillRectOp (strokeRectOp c x1 y1 w h) x1 y1 w h
        | _, _ => c
      | _ => c

/-- The `try` block of `createHighlightedImage` (lines 151-203): decode the
target image, build a canvas of its dimensions, draw the image, compute
`scaleX = image.width / processedDims.width` and `scaleY = image.height /
processedDims.height` (a `TypeError` if `processedDims` is `undefined`),
iterate the callback over the difference array (a `TypeError` if it is not
an array), and write the file.  Any thrown error is the `Except.error`
case. -/
def renderBody (load : Except Unit Canvas) (diffList : Json) (processedDims : Option Json)
    (writeOk : Except Unit Unit) : Except Unit Canvas := do
  let image ← load
  let c1 := drawImage (createCanvas image.width image.height) image
  let pdObj ← match processedDims with
    | none => Except.error ()
    | some p => Except.ok p
  let sx := jsDiv (some ((image.width : ℚ))) (numField pdObj "width")
  let sy := jsDiv (some ((image.height : ℚ))) (numField pdObj "height")
  let xs ← match diffList with
    | Json.arr xs => Except.ok xs
    | _ => Except.error ()
  let c2 := xs.foldl (drawDiff sx sy) c1
  let _ ← writeOk
  Except.ok c2

/-- `createHighlightedImage(imagePath, differences, processedDims)`: return
`null` (`none`) if `differences` or `differences.differences` is falsy;
otherwise run the `try` block, and on any thrown error log it and return
`null` — the `catch` at lines 204-207 performs local recovery instead of
propagating.  A `some` result stands for the returned output path together
with the image written there. -/
def createHighlightedImage (load : Except Unit Canvas) (differences : Option Json)
    (processedDims : Option Json) (writeOk : Except Unit Unit) : Option Canvas :=
  match differences with
  | none => none
  | some d =>
    if jsFalsy d then none
    else
      match getField d "differences" with
      | none => none
      | some dl =>
        if jsFalsy dl then none
        else
          match renderBody load dl processedDims writeOk with
          | Except.ok c => some c
          | Except.error _ => none

/-- Result record of `compareImages` (lines 132-137); the analysis field is
the raw response text and `highlightedImagePath` is the value returned by
`createHighlightedImage` (`none` = `null`). -/
structure CompareResult where
  processedDimensions : Json
  differences : Json
  analysis : List Char
  highlightedImagePath : Option Canvas

/-- `compareImages` from the model response onward: the parsing phase, then
the member chain `processedDimensions.processed_dimensions.image2` (a
`TypeError` if the intermediate access yields `undefined`), then the
renderer call.  Errors thrown anywhere are re-thrown by the `catch` at
lines 138-141. -/
def compareImages (content : List Char) (load : Except Unit Canvas)
    (writeOk : Except Unit Unit) : Except JsErr CompareResult := do
  let (pv, dv) ← parsePhase content
  let image2 ← match getField pv "processed_dimensions" with
    | none => Except.error JsErr.undefinedProp
    | some inner => Except.ok (getField inner "image2")
  Except.ok ⟨pv, dv, content, createHighlightedImage load (some dv) image2 writeOk⟩

/-- Modelled from the spec: the Image Preprocessor of section 4.1.  No
resizing routine exists anywhere in the repository sources — the images are
sent to the external model at their original size and the model itself
reports the dimensions it processed — so this definition follows the spec's
words: an image whose longer side exceeds the threshold is resized so that
the longer side equals the threshold and the shorter side is
`round(shorter * threshold / longer)`; an image already within the threshold
is untouched; the returned per-axis scale factors are original/new. -/
def preprocess (w h t : ℕ) : (ℕ × ℕ) × (ℚ × ℚ) :=
  if max w h ≤ t then ((w, h), (1, 1))
  else if h ≤ w then
    let h' := (round (((h * t : ℕ) : ℚ) / (w : ℚ))).toNat
    ((t, h'), ((w : ℚ) / (t : ℚ), (h : ℚ) / (h' : ℚ)))
  else
    let w' := (round (((w * t : ℕ) : ℚ) / (h : ℚ))).toNat
    ((w', t), ((w : ℚ) / (w' : ℚ), (h : ℚ) / (t : ℚ)))

/-!
Concrete fixtures used by the theorems below.
-/

/-- An opaque white pixel. -/
def whitePx : RGBA := ⟨255, 255, 255, 1⟩

/-- A 100 by 100 all-white target image. -/
def white100 : Canvas := ⟨100, 100, fun _ _ => whitePx⟩

/-- The parsed value of the no-differences payload. -/
def emptyDiffs : Json := Json.obj [("differences", Json.arr [])]

/-- Processed dimensions equal to the target size, so the scale factors are 1. -/
def dims100 : Json := Json.obj [("width", Json.num 100), ("height", Json.num 100)]

/-- A bounding-box object with the four corner fields. -/
def mkBox (x1 y1 x2 y2 : ℚ) : Json :=
  Json.obj [("x1", Json.num x1), ("y1", Json.num y1), ("x2", Json.num x2), ("y2", Json.num y2)]

/-- A difference carrying only a `coordinates` box and no `highlight_area`. -/
def coordOnlyDiff : Json :=
  Json.obj [("type", Json.str "layout_change"), ("coordinates", mkBox 10 10 50 50)]

/-- A difference carrying the same box as `coordOnlyDiff`, but under
`highlight_area`. -/
def highlightDiff : Json := Json.obj [("highlight_area", mkBox 10 10 50 50)]

/-- A model response with no JSON anywhere. -/
def noJsonText : List Char := "hello, there is no json here at all".data

/-- A model response with one well-formed fenced JSON block that lacks both
required top-level keys. -/
def keyMissingText : List Char := "```json\n\x7b\"foo\": 1\x7d\n```".data

/-- A model response whose dimensions block contains malformed JSON (a
trailing comma). -/
def malformedFencedText : List Char :=
  "```json\n\x7b\"processed_dimensions\": 1,\x7d\n```".data

/-- A model response that is a bare brace-delimited JSON object with no code
fence around it. -/
def bareJsonText : List Char := "\x7b\"differences\": []\x7d".data

/-- A model response containing only the dimensions payload. -/
def dimsOnlyText : List Char := "```json\n\x7b\"processed_dimensions\": \x7b\x7d\x7d\n```".data

/-- A model response containing only the differences payload. -/
def diffsOnlyText : List Char := "```json\n\x7b\"differences\": []\x7d\n```".data

/-- A complete well-formed model response: a dimensions block, prose, and an
empty differences block. -/
def goodContent : List Char :=
  ("```json\n\x7b\"processed_dimensions\": \x7b\"image1\": \x7b\"width\": 800, \"height\": 600\x7d, "
    ++ "\"image2\": \x7b\"width\": 800, \"height\": 600\x7d\x7d\x7d\n```\nSome analysis text.\n"
    ++ "```json\n\x7b\"differences\": []\x7d\n```").data

/-!
Helper lemmas shared by the claim theorems.
-/

theorem renderBody_load_err (dl : Json) (pd : Option Json) (wr : Except Unit Unit) :
    renderBody (Except.error ()) dl pd wr = Except.error () := rfl

theorem renderBody_write_err (load : Except Unit Canvas) (dl : Json) (pd : Option Json) :
    renderBody load dl pd (Except.error ()) = Except.error () := by
  cases load with
  | error e => rfl
  | ok img =>
    cases pd with
    | none => rfl
    | some p => cases dl <;> rfl

theorem drawDiff_dims (sx sy : JsNum) (c : Canvas) (d : Json) :
    (drawDiff sx sy c d).width = c.width ∧ (drawDiff sx sy c d).height = c.height := by
  unfold drawDiff
  repeat' split
  all_goals exact ⟨rfl, rfl⟩

theorem foldl_drawDiff_dims (sx sy : JsNum) (xs : List Json) (c : Canvas) :
    (xs.foldl (drawDiff sx sy) c).width = c.width
    ∧ (xs.foldl (drawDiff sx sy) c).height = c.height := by
  induction xs generalizing c with
  | nil => exact ⟨rfl, rfl⟩
  | cons d rest ih =>
    simp only [List.foldl_cons]
    rcases ih (drawDiff sx sy c d) with ⟨hw, hh⟩
    rcases drawDiff_dims sx sy c d with ⟨hw2, hh2⟩
    exact ⟨hw.trans hw2, hh.trans hh2⟩

theorem renderBody_dims (img : Canvas) (dl : Json) (pd : Option Json) (wr : Except Unit Unit)
    (c : Canvas) (h : renderBody (Except.ok img) dl pd wr = Except.ok c) :
    c.width = img.width ∧ c.height = img.height := by
  cases pd with
  | none => exact Except.noConfusion (show (Except.error () : Except Unit Canvas) = Except.ok c from h)
  | some p =>
    cases dl with
    | arr xs =>
      cases wr with
      | error e =>
        exact Except.noConfusion (show (Except.error () : Except Unit Canvas) = Except.ok c from h)
      | ok u =>
        have hc : xs.foldl
            (drawDiff (jsDiv (some ((img.width : ℚ))) (numField p "width"))
              (jsDiv (some ((img.height : ℚ))) (numField p "height")))
            (drawImage (createCanvas img.width img.height) img) = c := by
          cases u
          injection (show Except.ok (xs.foldl _ _) = Except.ok c from h)
        rw [← hc]
        exact foldl_drawDiff_dims _ _ xs _
    | null => exact Except.noConfusion (show (Except.error () : Except Unit Canvas) = Except.ok c from h)
    | bool b => exact Except.noConfusion (show (Except.error () : Except Unit Canvas) = Except.ok c from h)
    | num q => exact Except.noConfusion (show (Except.error () : Except Unit Canvas) = Except.ok c from h)
    | str s => exact Except.noConfusion (show (Except.error () : Except Unit Canvas) = Except.ok c from h)
    | obj fs => exact Except.noConfusion (show (Except.error () : Except Unit Canvas) = Except.ok c from h)

theorem round_le_nat (q : ℚ) (t : ℕ) (hq : q ≤ (t : ℚ)) : round q ≤ (t : ℤ) := by
  rw [round_eq]
  have h1 : ⌊q + 1 / 2⌋ ≤ ⌊(t : ℚ) + 1 / 2⌋ := Int.floor_le_floor (by linarith)
  have h2 : ⌊(t : ℚ) + 1 / 2⌋ = (t : ℤ) := by
    rw [Int.floor_eq_iff]
    constructor <;> push_cast <;> norm_num
  omega

/-!
The claim theorems.
-/

/-- C1: for every difference bounding box and positive processed dimensions
`(pw, ph)` and target dimensions `(tw, th)`, the rescaled box produced by
`createHighlightedImage` is computed by independent per-axis linear scaling —
each x coordinate is multiplied by `tw / pw` and each y coordinate by
`th / ph`; in particular the box `(100, 100, 200, 150)` under processed
dimensions `1568 by 1176` with an `800 by 600` target rescales, after
rounding, to `(51, 51, 102, 77)`. -/
theorem c1_rescale_per_axis (x1 y1 x2 y2 pw ph tw th : ℚ)
    (hpw : 0 < pw) (hph : 0 < ph) (htw : 0 < tw) (hth : 0 < th) :
    scaledCorners (jsDiv (some tw) (some pw)) (jsDiv (some th) (some ph)) (mkBox x1 y1 x2 y2)
      = (some (x1 * (tw / pw)), some (y1 * (th / ph)),
         some (x2 * (tw / pw)), some (y2 * (th / ph)))
    ∧ round ((100 : ℚ) * (800 / 1568)) = 51 ∧ round ((100 : ℚ) * (600 / 1176)) = 51
    ∧ round ((200 : ℚ) * (800 / 1568)) = 102 ∧ round ((150 : ℚ) * (600 / 1176)) = 77 := by
  refine ⟨?_, ?_, ?_, ?_, ?_⟩
  · have e1 : jsDiv (some tw) (some pw) = some (qdiv tw pw) := by
      simp [jsDiv, hpw.ne']
    have e2 : jsDiv (some th) (some ph) = some (qdiv th ph) := by
      simp [jsDiv, hph.ne']
    rw [e1, e2]
    show (some (qmul x1 (qdiv tw pw)), some (qmul y1 (qdiv th ph)),
          some (qmul x2 (qdiv tw pw)), some (qmul y2 (qdiv th ph))) = _
    rw [qmul_eq, qmul_eq, qmul_eq, qmul_eq, qdiv_eq, qdiv_eq]
  all_goals rw [round_eq, Int.floor_eq_iff] <;> norm_num

/-- Witness for C1 at the concrete inputs of the claim. -/
theorem c1_rescale_per_axis_witness :
    (0 : ℚ) < 1568 ∧ (0 : ℚ) < 1176 ∧
    (scaledCorners (jsDiv (some 800) (some 1568)) (jsDiv (some 600) (some 1176))
        (mkBox 100 100 200 150)
      = (some ((100 : ℚ) * (800 / 1568)), some ((100 : ℚ) * (600 / 1176)),
         some ((200 : ℚ) * (800 / 1568)), some ((150 : ℚ) * (600 / 1176)))
     ∧ round ((100 : ℚ) * (800 / 1568)) = 51 ∧ round ((100 : ℚ) * (600 / 1176)) = 51
     ∧ round ((200 : ℚ) * (800 / 1568)) = 102 ∧ round ((150 : ℚ) * (600 / 1176)) = 77) :=
  ⟨by norm_num, by norm_num,
   c1_rescale_per_axis 100 100 200 150 1568 1176 800 600
     (by norm_num) (by norm_num) (by norm_num) (by norm_num)⟩

/-- C2 counterexample: the claim asserts three mutually distinguishable error
kinds, but a response with no JSON at all and a response with a well-formed
fenced JSON block that merely lacks the required keys produce the very same
error value, so "no JSON found" and "required key missing" are not
distinguishable. -/
theorem c2_error_kinds_counterexample :
    parsePhase noJsonText = Except.error JsErr.missingPayload
    ∧ parsePhase keyMissingText = Except.error JsErr.missingPayload
    ∧ parsePhase noJsonText = parsePhase keyMissingText := ⟨rfl, rfl, rfl⟩

/-- C2 amended: the parser distinguishes exactly two failure kinds, not
three — malformed JSON inside a matched fenced block raises the JSON syntax
error, which is distinct from the single generic extraction error raised
both when no JSON is found and when the required key is missing. -/
theorem c2_error_kinds_amended (content m : List Char)
    (hm : firstMatch keyDims content = some m)
    (hp : jsonParse (stripFences m) = none) :
    parsePhase content = Except.error JsErr.badJson
    ∧ JsErr.badJson ≠ JsErr.missingPayload := by
  constructor
  · have he : extractPayload keyDims content = Except.error JsErr.badJson := by
      simp only [extractPayload, hm, jsonParseJs, hp]
      rfl
    unfold parsePhase
    rw [he]
    rfl
  · decide

/-- Witness for the amended C2 at a fenced dimensions block containing a
trailing comma. -/
theorem c2_error_kinds_amended_witness :
    parsePhase malformedFencedText = Except.error JsErr.badJson
    ∧ JsErr.badJson ≠ JsErr.missingPayload :=
  c2_error_kinds_amended malformedFencedText malformedFencedText rfl rfl

/-- C3: whenever exactly one of the two payloads is extractable from the
model response, `compareImages` throws the hard extraction error and never
reaches rescaling or rendering. -/
theorem c3_single_payload_error (content : List Char) (load : Except Unit Canvas)
    (writeOk : Except Unit Unit)
    (h : (∃ v, extractPayload keyDims content = Except.ok (some v))
           ∧ extractPayload keyDiffs content = Except.ok none
       ∨ extractPayload keyDims content = Except.ok none
           ∧ ∃ v, extractPayload keyDiffs content = Except.ok (some v)) :
    compareImages content load writeOk = Except.error JsErr.missingPayload := by
  have hp : parsePhase content = Except.error JsErr.missingPayload := by
    rcases h with ⟨⟨v, h1⟩, h2⟩ | ⟨h1, ⟨v, h2⟩⟩ <;>
      · unfold parsePhase
        rw [h1, h2]
        rfl
  unfold compareImages
  rw [hp]
  rfl

/-- Witness for C3 at a response carrying only the dimensions payload. -/
theorem c3_single_payload_error_witness :
    (∃ v, extractPayload keyDims dimsOnlyText = Except.ok (some v))
    ∧ extractPayload keyDiffs dimsOnlyText = Except.ok none
    ∧ compareImages dimsOnlyText (Except.ok white100) (Except.ok ())
        = Except.error JsErr.missingPayload :=
  ⟨⟨Json.obj [("processed_dimensions", Json.obj [])], rfl⟩, rfl,
   c3_single_payload_error dimsOnlyText (Except.ok white100) (Except.ok ())
     (Or.inl ⟨⟨Json.obj [("processed_dimensions", Json.obj [])], rfl⟩, rfl⟩)⟩

/-- C4 counterexample: a response that is exactly one parseable
brace-delimited JSON object with no code fence.  The claim says the parser
falls back to parsing that substring; the code instead fails with the
generic extraction error, although a direct parse of the substring
succeeds. -/
theorem c4_fallback_counterexample :
    jsonParse bareJsonText = some emptyDiffs
    ∧ parsePhase bareJsonText = Except.error JsErr.missingPayload := ⟨rfl, rfl⟩

/-- C4 amended: when no fenced block matches either key, the current parser
reports the generic extraction failure directly, with no brace-scanning
fallback (that fallback exists only in the abandoned draft `compareImages`
kept alongside the live one). -/
theorem c4_no_fallback (content : List Char)
    (h1 : firstMatch keyDims content = none)
    (h2 : firstMatch keyDiffs content = none) :
    parsePhase content = Except.error JsErr.missingPayload := by
  have e1 : extractPayload keyDims content = Except.ok none := by
    unfold extractPayload
    rw [h1]
  have e2 : extractPayload keyDiffs content = Except.ok none := by
    unfold extractPayload
    rw [h2]
  unfold parsePhase
  rw [e1, e2]
  rfl

/-- Witness for the amended C4 at the bare-JSON response. -/
theorem c4_no_fallback_witness :
    parsePhase bareJsonText = Except.error JsErr.missingPayload :=
  c4_no_fallback bareJsonText rfl rfl

/-- C5 counterexample: invoking the renderer with a missing (`null`)
difference list does not produce a copy of the target image; the renderer
returns `null` and renders nothing. -/
theorem c5_missing_list_counterexample :
    createHighlightedImage (Except.ok white100) none (some dims100) (Except.ok ()) = none := rfl

/-- C5 amended: an explicit empty difference list is indeed not an error —
the output is a plain pixel-for-pixel copy of the target image — but a
missing (`null`) difference list, or an object without the `differences`
field, makes the renderer return `null` without producing an image. -/
theorem c5_render_empty_or_missing (img : Canvas) (pdv : Json) :
    (createHighlightedImage (Except.ok img) (some emptyDiffs) (some pdv) (Except.ok ())
        = some (drawImage (createCanvas img.width img.height) img))
    ∧ (∀ x y, x < img.width → y < img.height →
        (drawImage (createCanvas img.width img.height) img).px x y = img.px x y)
    ∧ (∀ load pd wr, createHighlightedImage load none pd wr = none)
    ∧ (∀ (load : Except Unit Canvas) (pd : Option Json) (wr : Except Unit Unit) (d : Json),
        getField d "differences" = none → createHighlightedImage load (some d) pd wr = none) := by
  refine ⟨rfl, ?_, fun _ _ _ => rfl, ?_⟩
  · intro x y hx hy
    show (if x < img.width ∧ y < img.height ∧ x < img.width ∧ y < img.height
          then img.px x y else (⟨0, 0, 0, 0⟩ : RGBA)) = img.px x y
    rw [if_pos ⟨hx, hy, hx, hy⟩]
  · intro load pd wr d h
    simp only [createHighlightedImage, h, ite_self]

/-- Witness for the amended C5 on a concrete white target image. -/
theorem c5_render_empty_or_missing_witness :
    (createHighlightedImage (Except.ok white100) (some emptyDiffs) (some dims100) (Except.ok ())
        = some (drawImage (createCanvas white100.width white100.height) white100))
    ∧ (drawImage (createCanvas white100.width white100.height) white100).px 20 20
        = white100.px 20 20 :=
  ⟨(c5_render_empty_or_missing white100 dims100).1,
   (c5_render_empty_or_missing white100 dims100).2.1 20 20 (by decide) (by decide)⟩

/-- C6 counterexample: a difference that carries a `coordinates` box but no
`highlight_area` leaves the rendered pixel inside that box untouched (still
white), whereas the identical box supplied as `highlight_area` paints it —
so `coordinates` is never used as a fallback and the difference is silently
skipped. -/
theorem c6_coordinates_counterexample :
    ((createHighlightedImage (Except.ok white100)
        (some (Json.obj [("differences", Json.arr [coordOnlyDiff])])) (some dims100)
        (Except.ok ())).map fun c => c.px 20 20) = some whitePx
    ∧ ((createHighlightedImage (Except.ok white100)
        (some (Json.obj [("differences", Json.arr [highlightDiff])])) (some dims100)
        (Except.ok ())).map fun c => c.px 20 20) = some (srcOver fillColor whitePx)
    ∧ srcOver fillColor whitePx ≠ whitePx
    ∧ getField coordOnlyDiff "coordinates" = some (mkBox 10 10 50 50) := by
  refine ⟨rfl, rfl, ?_, rfl⟩
  simp only [srcOver, fillColor, whitePx]
  norm_num

/-- C6 amended: the renderer draws only from `highlight_area`; a difference
without it is skipped unchanged, and its `coordinates` box is never
consulted. -/
theorem c6_skip_without_highlight (sx sy : JsNum) (c : Canvas) (d : Json)
    (h : getField d "highlight_area" = none) :
    drawDiff sx sy c d = c := by
  unfold drawDiff
  rw [h]

/-- Witness for the amended C6 at the coordinates-only difference. -/
theorem c6_skip_without_highlight_witness :
    drawDiff (some 1) (some 1) white100 coordOnlyDiff = white100 :=
  c6_skip_without_highlight (some 1) (some 1) white100 coordOnlyDiff rfl

/-- C7 counterexample: on a well-formed response, a failing image decode or a
failing file write does not surface any error to `compareImages` — the call
returns successfully with a `null` `highlightedImagePath`. -/
theorem c7_propagation_counterexample :
    ((compareImages goodContent (Except.error ()) (Except.ok ())).map
        fun r => r.highlightedImagePath) = Except.ok none
    ∧ ((compareImages goodContent (Except.ok white100) (Except.error ())).map
        fun r => r.highlightedImagePath) = Except.ok none := ⟨rfl, rfl⟩

/-- C7 amended: when the target image cannot be decoded, or the output write
fails, `createHighlightedImage` catches the error locally and returns `null`
(`none`); no error ever propagates out of the renderer. -/
theorem c7_null_on_failure :
    (∀ differences pd wr, createHighlightedImage (Except.error ()) differences pd wr = none)
    ∧ (∀ load differences pd, createHighlightedImage load differences pd (Except.error ()) = none) := by
  constructor
  · intro df pd wr
    cases df with
    | none => rfl
    | some d =>
      unfold createHighlightedImage
      repeat' split
      all_goals first
        | rfl
        | (rename_i heq
           rw [renderBody_load_err] at heq
           cases heq)
  · intro load df pd
    cases df with
    | none => rfl
    | some d =>
      unfold createHighlightedImage
      repeat' split
      all_goals first
        | rfl
        | (rename_i heq
           rw [renderBody_write_err] at heq
           cases heq)

/-- C8: the Image Preprocessor (modelled from the spec; see `preprocess`)
leaves an image within the threshold untouched with unit scale factors, and
resizes an over-threshold image so that the longer side equals the threshold
exactly, the shorter side is `round(shorter * threshold / longer)`, and the
returned factors are original/new along each axis. -/
theorem c8_preprocess_resize (w h t : ℕ) (ht : 0 < t) :
    (max w h ≤ t → preprocess w h t = ((w, h), (1, 1)))
    ∧ (t < max w h → h ≤ w →
        preprocess w h t
          = ((t, (round (((h * t : ℕ) : ℚ) / (w : ℚ))).toNat),
             ((w : ℚ) / (t : ℚ),
              (h : ℚ) / (((round (((h * t : ℕ) : ℚ) / (w : ℚ))).toNat : ℕ) : ℚ)))
        ∧ max t (round (((h * t : ℕ) : ℚ) / (w : ℚ))).toNat = t)
    ∧ (t < max w h → w < h →
        preprocess w h t
          = (((round (((w * t : ℕ) : ℚ) / (h : ℚ))).toNat, t),
             ((w : ℚ) / (((round (((w * t : ℕ) : ℚ) / (h : ℚ))).toNat : ℕ) : ℚ),
              (h : ℚ) / (t : ℚ)))
        ∧ max (round (((w * t : ℕ) : ℚ) / (h : ℚ))).toNat t = t) := by
  refine ⟨?_, ?_, ?_⟩
  · intro hmax
    simp only [preprocess, if_pos hmax]
  · intro hmax hhw
    have htw : t < w := by
      rw [max_eq_left hhw] at hmax
      exact hmax
    have hw0 : (0 : ℚ) < (w : ℚ) := by
      have : 0 < w := lt_trans ht htw
      exact_mod_cast this
    have hq : (((h * t : ℕ) : ℚ)) / (w : ℚ) ≤ (t : ℚ) := by
      rw [div_le_iff₀ hw0]
      push_cast
      have : (h : ℚ) ≤ (w : ℚ) := by exact_mod_cast hhw
      have ht0 : (0 : ℚ) ≤ (t : ℚ) := by positivity
      nlinarith
    have hle : (round (((h * t : ℕ) : ℚ) / (w : ℚ))).toNat ≤ t :=
      Int.toNat_le.mpr (round_le_nat _ t hq)
    constructor
    · simp only [preprocess, if_neg (not_le.mpr hmax), if_pos hhw]
    · exact Nat.max_eq_left hle
  · intro hmax hwh
    have hth : t < h := by
      rw [max_eq_right (le_of_lt hwh)] at hmax
      exact hmax
    have hh0 : (0 : ℚ) < (h : ℚ) := by
      have : 0 < h := lt_trans ht hth
      exact_mod_cast this
    have hq : (((w * t : ℕ) : ℚ)) / (h : ℚ) ≤ (t : ℚ) := by
      rw [div_le_iff₀ hh0]
      push_cast
      have : (w : ℚ) ≤ (h : ℚ) := by exact_mod_cast (le_of_lt hwh)
      have ht0 : (0 : ℚ) ≤ (t : ℚ) := by positivity
      nlinarith
    have hle : (round (((w * t : ℕ) : ℚ) / (h : ℚ))).toNat ≤ t :=
      Int.toNat_le.mpr (round_le_nat _ t hq)
    constructor
    · simp only [preprocess, if_neg (not_le.mpr hmax), if_neg (not_le.mpr hwh)]
    · exact Nat.max_eq_right hle

/-- Witness for C8 at a 3136 by 2352 image with threshold 1568. -/
theorem c8_preprocess_resize_witness :
    preprocess 3136 2352 1568
      = ((1568, (round (((2352 * 1568 : ℕ) : ℚ) / (3136 : ℚ))).toNat),
         ((3136 : ℚ) / (1568 : ℚ),
          (2352 : ℚ) / (((round (((2352 * 1568 : ℕ) : ℚ) / (3136 : ℚ))).toNat : ℕ) : ℚ)))
    ∧ max 1568 (round (((2352 * 1568 : ℕ) : ℚ) / (3136 : ℚ))).toNat = 1568 :=
  (c8_preprocess_resize 3136 2352 1568 (by norm_num)).2.1 (by norm_num) (by norm_num)

/-- C9: a fenced block containing an explicit empty difference list parses
successfully into the explicit empty list — not `null`, not absence, not an
error. -/
theorem c9_empty_differences (content : List Char)
    (h : firstMatch keyDiffs content = some diffsOnlyText) :
    extractPayload keyDiffs content = Except.ok (some emptyDiffs)
    ∧ getField emptyDiffs "differences" = some (Json.arr []) := by
  constructor
  · simp only [extractPayload, h]
    rfl
  · rfl

/-- Witness for C9 at the response consisting of exactly that block. -/
theorem c9_empty_differences_witness :
    extractPayload keyDiffs diffsOnlyText = Except.ok (some emptyDiffs)
    ∧ getField emptyDiffs "differences" = some (Json.arr []) :=
  c9_empty_differences diffsOnlyText rfl

/-- C10: every successful render has exactly the pixel dimensions of the
decoded target image, whatever the processed dimensions and difference boxes
are; rectangles never repaint pixels outside the canvas bounds nor change
the canvas size, so out-of-range boxes are clipped by rasterization rather
than enlarging the output. -/
theorem c10_output_dims (img : Canvas) (df pd : Option Json) (wr : Except Unit Unit) (c : Canvas)
    (h : createHighlightedImage (Except.ok img) df pd wr = some c) :
    (c.width = img.width ∧ c.height = img.height)
    ∧ (∀ (x y rw rh : ℚ) (c0 : Canvas) (i j : ℕ), ¬(i < c0.width ∧ j < c0.height) →
        (fillRectOp c0 x y rw rh).px i j = c0.px i j
        ∧ (strokeRectOp c0 x y rw rh).px i j = c0.px i j
        ∧ (fillRectOp c0 x y rw rh).width = c0.width
        ∧ (strokeRectOp c0 x y rw rh).width = c0.width) := by
  constructor
  · unfold createHighlightedImage at h
    repeat' split at h
    all_goals try exact Option.noConfusion h
    rename_i dl hdl hfalsy c' heq
    have hc : c' = c := by injection h
    subst hc
    exact renderBody_dims img _ pd wr _ heq
  · intro x y rw rh c0 i j hij
    refine ⟨?_, ?_, rfl, rfl⟩
    · show (if i < c0.width ∧ j < c0.height ∧ rectHit x y rw rh (ctr i) (ctr j) = true
            then srcOver fillColor (c0.px i j) else c0.px i j) = c0.px i j
      rw [if_neg]
      intro hcon
      exact hij ⟨hcon.1, hcon.2.1⟩
    · show (if i < c0.width ∧ j < c0.height ∧ strokeHit x y rw rh (ctr i) (ctr j) = true
            then srcOver strokeColor (c0.px i j) else c0.px i j) = c0.px i j
      rw [if_neg]
      intro hcon
      exact hij ⟨hcon.1, hcon.2.1⟩

/-- Witness for C10 at a successful concrete render. -/
theorem c10_output_dims_witness :
    (drawImage (createCanvas 100 100) white100).width = white100.width
    ∧ (drawImage (createCanvas 100 100) white100).height = white100.height :=
  (c10_output_dims white100 (some emptyDiffs) (some dims100) (Except.ok ())
    (drawImage (createCanvas 100 100) white100) rfl).1
